import Mathlib

/-
  Verification of the pubtrends retrieval-and-clustering pipeline.

  The Lean definitions below are a shallow embedding of the Python sources:
    app/utils/cache.py          (TTL cache, size-bounded memoizing wrapper)
    app/utils/data_retrieval.py (rate limiter, E-Utilities client, orchestrator)
    app/utils/text_processing.py(combined text, TF-IDF vectorization gate)
    app/utils/clustering.py     (cluster-count estimation, graph building)
    app/api/routes.py           (fetch-geo-data endpoint core)

  External library calls (sklearn clustering and silhouette scoring, the numeric
  TF-IDF fit, t-SNE) are abstracted as oracle parameters; the surrounding control
  flow, caching, and data assembly are translated directly from the source.
  Wall-clock time is modelled as a rational number; time.sleep is modelled as
  sleeping exactly the requested duration.
-/

namespace PubTrends

/- ----------------------------------------------------------------- -/
/- Association lists with Python-dict semantics (insertion order;    -/
/- overwriting keeps the original position, fresh keys append).      -/
/- ----------------------------------------------------------------- -/

abbrev AList (α : Type) := List (String × α)

def alistLookup {α : Type} : AList α → String → Option α
  | [], _ => none
  | p :: rest, k => if p.1 = k then some p.2 else alistLookup rest k

def alistInsert {α : Type} (m : AList α) (k : String) (v : α) : AList α :=
  if (alistLookup m k).isSome then
    m.map (fun p => if p.1 = k then (k, v) else p)
  else m ++ [(k, v)]

/- ----------------------------------------------------------------- -/
/- app/utils/cache.py                                                -/
/- ----------------------------------------------------------------- -/

abbrev Time := ℚ

def CACHE_EXPIRY : Time := 86400

/- A cache maps a key to a (timestamp, data) pair, mirroring
   cache_dict[key] = (time.time(), data). -/
abbrev Cache (α : Type) := AList (Time × α)

/- get_from_cache (cache.py lines 13-19): entry present and fresher than
   CACHE_EXPIRY gives the stored data, otherwise None. -/
def getFromCache {α : Type} (c : Cache α) (k : String) (now : Time) : Option α :=
  match alistLookup c k with
  | some tsData => if now - tsData.1 < CACHE_EXPIRY then some tsData.2 else none
  | none => none

/- State-transformer view of get_from_cache: the source only reads cache_dict,
   so the cache component of the result is the unchanged input cache. -/
def getFromCacheST {α : Type} (c : Cache α) (k : String) (now : Time) :
    Option α × Cache α :=
  (getFromCache c k now, c)

/- add_to_cache (cache.py lines 22-24). -/
def addToCache {α : Type} (c : Cache α) (k : String) (now : Time) (v : α) : Cache α :=
  alistInsert c k (now, v)

/- Minimum stored timestamp of a cache (min over cache[k][0]). -/
def minTimestamp {α : Type} : Cache α → Option Time
  | [] => none
  | e :: rest =>
    match minTimestamp rest with
    | none => some e.2.1
    | some m => some (min e.2.1 m)

/- Removal of the first entry holding the given timestamp; Python min over
   dict keys returns the first key in iteration order attaining the minimum,
   and del removes that key. -/
def removeFirstWithTs {α : Type} : Cache α → Time → Cache α
  | [], _ => []
  | e :: rest, m => if e.2.1 = m then rest else e :: removeFirstWithTs rest m

def evictOldest {α : Type} (c : Cache α) : Cache α :=
  match minTimestamp c with
  | none => c
  | some m => removeFirstWithTs c m

/- The store step of the cached_result wrapper (cache.py lines 43-48):
   add_to_cache, then evict the oldest entry when the map exceeds max_size. -/
def putStep {α : Type} (c : Cache α) (k : String) (now : Time) (v : α)
    (maxSize : Nat) : Cache α :=
  let c1 := addToCache c k now v
  if maxSize < c1.length then evictOldest c1 else c1

/- One call of the wrapper produced by cached_result (cache.py lines 32-50),
   for an underlying function whose Python result may be None: stored values
   have type Option V with none standing for Python None.  get_from_cache
   returns the stored data directly, so the wrapper observes the join of the
   model-level lookup; fres is the value the wrapped function would return.
   Result: (returned value, cache afterwards, whether the function ran). -/
def cachedCall {V : Type} (c : Cache (Option V)) (k : String) (now : Time)
    (maxSize : Nat) (fres : Option V) : Option V × Cache (Option V) × Bool :=
  match (getFromCache c k now).join with
  | some v => (some v, c, false)
  | none => (fres, putStep c k now fres maxSize, true)

/- ----------------------------------------------------------------- -/
/- app/utils/data_retrieval.py: rate limiter                         -/
/- ----------------------------------------------------------------- -/

/- EUtilsClient._respect_rate_limit (lines 34-42) with sleep modelled exact:
   given the stored last_request_time and the wall-clock time now at which the
   call starts, returns (time at which the call returns, new last_request_time).
   The source reads time.time() again after sleeping, so the stored timestamp
   is the post-sleep time. -/
def respectRateLimit (delay lastRequestTime now : Time) : Time × Time :=
  let timeSinceLast := now - lastRequestTime
  if timeSinceLast < delay then
    (now + (delay - timeSinceLast), now + (delay - timeSinceLast))
  else (now, now)

/- ----------------------------------------------------------------- -/
/- app/utils/data_retrieval.py: E-Utilities client                   -/
/- ----------------------------------------------------------------- -/

/- Parsed esummary response fragment: a DocSum node holds Item elements with a
   Name attribute, optional text, and nested sub-items (gdsSubset). -/
structure SubItem where
  nameAttr : String
  text : Option String
deriving DecidableEq

structure SummaryItem where
  nameAttr : String
  text : Option String
  subItems : List SubItem
deriving DecidableEq

structure DocSum where
  items : List SummaryItem
deriving DecidableEq

/- A dataset record as assembled by get_geo_dataset_details. -/
structure Dataset where
  geo_id : String
  title : String
  experiment_type : String
  summary : String
  organism : String
  overall_design : String
deriving DecidableEq

/- Substring search over character lists, used for Python `"design" in s`. -/
def matchesFront : List Char → List Char → Bool
  | [], _ => true
  | _ :: _, [] => false
  | a :: as, b :: bs => a == b && matchesFront as bs

def occursIn (needle : List Char) : List Char → Bool
  | [] => matchesFront needle []
  | b :: bs => matchesFront needle (b :: bs) || occursIn needle bs

def containsDesign (s : String) : Bool :=
  occursIn "design".toList s.toLower.toList

/- The gdsSubset branch (data_retrieval.py lines 164-168): every sub-item whose
   Name is "description" and whose lowered text contains "design" overwrites
   overall_design. -/
def applySubItems (d : Dataset) (subs : List SubItem) : Dataset :=
  subs.foldl
    (fun d si =>
      if si.nameAttr = "description" ∧ containsDesign (si.text.getD "") then
        { d with overall_design := si.text.getD "" }
      else d)
    d

/- The elif chain over Item elements (data_retrieval.py lines 154-168);
   Python item.text or "" maps None and "" alike to "". -/
def applyItem (d : Dataset) (it : SummaryItem) : Dataset :=
  if it.nameAttr = "title" then { d with title := it.text.getD "" }
  else if it.nameAttr = "summary" then { d with summary := it.text.getD "" }
  else if it.nameAttr = "gdsType" then { d with experiment_type := it.text.getD "" }
  else if it.nameAttr = "taxon" then { d with organism := it.text.getD "" }
  else if it.nameAttr = "gdsSubset" then applySubItems d it.subItems
  else d

/- Field extraction of get_geo_dataset_details (lines 142-168), starting from
   the all-empty record initialised at lines 143-150. -/
def extractDataset (geoId : String) (ds : DocSum) : Dataset :=
  ds.items.foldl applyItem
    { geo_id := geoId, title := "", experiment_type := "", summary := "",
      organism := "", overall_design := "" }

/- get_geo_dataset_details (lines 103-179) as a state transformer over the
   geo cache.  The network interaction is abstracted: resp is Except.error ()
   for a requests.RequestException, Except.ok none for a parsed response with
   no DocSum node, and Except.ok (some ds) for a response with a DocSum. -/
def getGeoDatasetDetails (c : Cache Dataset) (geoId : String) (now : Time)
    (resp : Except Unit (Option DocSum)) : Option Dataset × Cache Dataset :=
  match getFromCache c geoId now with
  | some d => (some d, c)
  | none =>
    match resp with
    | Except.error _ => (none, c)
    | Except.ok none => (none, c)
    | Except.ok (some ds) =>
      let d := extractDataset geoId ds
      (some d, addToCache c geoId now d)

/- Parsed elink response fragment: an optional LinkSet with LinkSetDb entries,
   each carrying a LinkName and its Link/Id values. -/
structure LinkSetDb where
  linkName : String
  linkIds : List String
deriving DecidableEq

structure ELinkResponse where
  linkSet : Option (List LinkSetDb)
deriving DecidableEq

/- ID extraction of get_geo_ids_for_pmid (lines 79-91): scan every LinkSetDb
   whose LinkName is pubmed_gds and collect its Link ids in order. -/
def extractGeoIds (r : ELinkResponse) : List String :=
  match r.linkSet with
  | none => []
  | some dbs =>
    dbs.foldl (fun acc db => if db.linkName = "pubmed_gds" then acc ++ db.linkIds else acc) []

/- get_geo_ids_for_pmid (lines 44-101) as a state transformer over the pmid
   cache; the Bool records whether a network request was issued (false exactly
   on the cache-hit path). -/
def getGeoIdsForPmid (c : Cache (List String)) (pmid : String) (now : Time)
    (resp : Except Unit ELinkResponse) : List String × Cache (List String) × Bool :=
  match getFromCache c pmid now with
  | some ids => (ids, c, false)
  | none =>
    match resp with
    | Except.error _ => ([], c, true)
    | Except.ok r =>
      let ids := extractGeoIds r
      (ids, addToCache c pmid now ids, true)

/- ----------------------------------------------------------------- -/
/- app/utils/data_retrieval.py: orchestrator                         -/
/- ----------------------------------------------------------------- -/

/- get_geo_data_for_pmids (lines 182-218).  The per-call client behaviour is
   abstracted into two oracles: resolve gives the dataset-ID list returned by
   get_geo_ids_for_pmid and fetch gives the record (or absence) returned by
   get_geo_dataset_details.  A fetched record is tagged with its originating
   PMID (dataset["pmid"] = pmid), modelled as a (pmid, record) pair. -/
def retrievalStep (resolve : String → List String) (fetch : String → Option Dataset)
    (acc : List (String × Dataset) × AList (List String)) (pmid : String) :
    List (String × Dataset) × AList (List String) :=
  if resolve pmid = [] then acc
  else
    (acc.1 ++ (resolve pmid).filterMap (fun g => (fetch g).map (fun d => (pmid, d))),
     alistInsert acc.2 pmid (resolve pmid))

def getGeoDataForPmids (pmids : List String) (resolve : String → List String)
    (fetch : String → Option Dataset) :
    List (String × Dataset) × AList (List String) :=
  pmids.foldl (retrievalStep resolve fetch) ([], [])

/- Spec-side description of the record list: for each PMID in input order, the
   successfully fetched records of its resolved dataset IDs, tagged with that
   PMID; used to compare the loop above against the sentence of the spec. -/
def taggedFetches (resolve : String → List String) (fetch : String → Option Dataset) :
    List String → List (String × Dataset)
  | [] => []
  | p :: rest =>
    (resolve p).filterMap (fun g => (fetch g).map (fun d => (p, d)))
      ++ taggedFetches resolve fetch rest

/- ----------------------------------------------------------------- -/
/- app/utils/clustering.py: cluster-count estimation                 -/
/- ----------------------------------------------------------------- -/

/- Oracle for the sklearn calls inside estimate_optimal_clusters: labels k is
   the label vector produced by AgglomerativeClustering(n_clusters=k) on the
   distance matrix, and score k is the silhouette score for those labels, with
   none standing for a ValueError raised by silhouette_score. -/
structure ClusterEnv where
  labels : Nat → List Int
  score : Nat → Option ℚ

/- The candidate loop of estimate_optimal_clusters (lines 36-56): for each
   n_clusters in range(2, bound+1), skip when fewer samples than clusters,
   skip when all samples land in one cluster, skip when scoring fails, and
   otherwise record (n_clusters, score). -/
def silhouetteScores (n maxClusters : Nat) (env : ClusterEnv) : List (Nat × ℚ) :=
  (List.range' 2 (min maxClusters (n - 1) - 1)).filterMap
    (fun k =>
      if n < k then none
      else if (env.labels k).dedup.length = 1 then none
      else (env.score k).map (fun s => (k, s)))

/- Python max(list, key=lambda x: x[1]): keep the current best unless a later
   element is strictly greater, so the first maximal element wins. -/
def argmaxFirst : Nat × ℚ → List (Nat × ℚ) → Nat × ℚ
  | best, [] => best
  | best, x :: rest => argmaxFirst (if best.2 < x.2 then x else best) rest

/- estimate_optimal_clusters (clustering.py lines 12-64); n is the number of
   rows of the similarity matrix. -/
def estimateOptimalClusters (n maxClusters : Nat) (env : ClusterEnv) : Nat :=
  if n < 2 then 1
  else if min maxClusters (n - 1) ≤ 1 then 1
  else
    match silhouetteScores n maxClusters env with
    | [] => if 1 < n then min 3 (n - 1) else 1
    | s :: rest => (argmaxFirst s rest).1

/- perform_clustering (clustering.py lines 66-97): aggLabels k is the label
   vector of the final AgglomerativeClustering fit with k clusters. -/
def performClustering (nRows : Nat) (env : ClusterEnv) (aggLabels : Nat → List Int) :
    List Int × Nat :=
  if nRows ≤ 1 then (List.replicate nRows 0, 1)
  else
    let k := estimateOptimalClusters nRows 10 env
    (aggLabels k, k)

/- ----------------------------------------------------------------- -/
/- app/utils/clustering.py: graph building                           -/
/- ----------------------------------------------------------------- -/

/- A node of the visualization graph.  Dataset nodes carry the metadata read
   off the dataframe row; PMID nodes carry none of it in the source (their
   dicts lack those keys), modelled here as empty strings. -/
structure GraphNode where
  id : String
  ntype : String
  title : String
  experiment_type : String
  organism : String
  pmid : String
  x : ℚ
  y : ℚ
  cluster : Int
deriving DecidableEq

structure Link where
  source : String
  target : String
  ltype : String
deriving DecidableEq

structure ClusterInfo where
  id : Int
  size : Nat
  datasets : List String
deriving DecidableEq

structure VizData where
  nodes : List GraphNode
  links : List Link
  clusters : List ClusterInfo
deriving DecidableEq

/- Dataset-node construction (clustering.py lines 164-180): rows are the
   (pmid, record) pairs of the orchestrator output; a row index beyond the
   coordinate or label arrays is skipped, which zipping reproduces. -/
def mkDatasetNode (row : String × Dataset) (coord : ℚ × ℚ) (label : Int) : GraphNode :=
  { id := row.2.geo_id, ntype := "dataset", title := row.2.title,
    experiment_type := row.2.experiment_type, organism := row.2.organism,
    pmid := row.1, x := coord.1, y := coord.2, cluster := label }

def datasetNodes (df : List (String × Dataset)) (coords : List (ℚ × ℚ))
    (labels : List Int) : List GraphNode :=
  (df.zip (coords.zip labels)).map (fun t => mkDatasetNode t.1 t.2.1 t.2.2)

/- PMID-node construction (lines 182-203): one node per pmidMap key with at
   least one matching dataset node, at the centroid of those nodes. -/
def pmidNodes (nodes : List GraphNode) (pmidMap : AList (List String)) :
    List GraphNode :=
  pmidMap.filterMap
    (fun p =>
      let related := nodes.filter (fun node => node.pmid == p.1)
      if related.isEmpty then none
      else some
        { id := p.1, ntype := "pmid", title := "", experiment_type := "",
          organism := "", pmid := "",
          x := (related.map (fun node => node.x)).sum / (related.length : ℚ),
          y := (related.map (fun node => node.y)).sum / (related.length : ℚ),
          cluster := -1 })

/- pmid_to_dataset links (lines 209-216): one per (pmid, geo_id) pair of the
   map, whether or not a dataset node with that id exists. -/
def pmidLinks (pmidMap : AList (List String)) : List Link :=
  pmidMap.foldr
    (fun p acc =>
      p.2.map (fun g => { source := p.1, target := g, ltype := "pmid_to_dataset" }) ++ acc)
    []

/- same_cluster links (lines 218-226): one per ordered enumeration i < j of
   dataset nodes with equal cluster labels. -/
def sameClusterLinks : List GraphNode → List Link
  | [] => []
  | node :: rest =>
    (rest.filter (fun other => other.cluster == node.cluster)).map
      (fun other => { source := node.id, target := other.id, ltype := "same_cluster" })
    ++ sameClusterLinks rest

/- Python range(k) over an integer bound. -/
def pyRange (k : Int) : List Int :=
  if k ≤ 0 then [] else (List.range k.toNat).map Int.ofNat

/- Cluster summaries (lines 228-237): one entry per label in range(max+1) with
   at least one member node.  On an empty label array the source raises inside
   numpy max; that configuration is modelled as an empty summary list and is
   not relied on by any theorem below. -/
def clusterSummaries (nodes : List GraphNode) (labels : List Int) : List ClusterInfo :=
  match labels.max? with
  | none => []
  | some m =>
    (pyRange (m + 1)).filterMap
      (fun cid =>
        let cnodes := nodes.filter (fun node => node.cluster == cid)
        if cnodes.isEmpty then none
        else some { id := cid, size := cnodes.length,
                    datasets := cnodes.map (fun node => node.id) })

/- prepare_visualization_data (clustering.py lines 138-246). -/
def prepareVisualizationData (df : List (String × Dataset)) (coords : List (ℚ × ℚ))
    (labels : List Int) (pmidMap : AList (List String)) : VizData :=
  if df = [] ∨ coords = [] then { nodes := [], links := [], clusters := [] }
  else
    let nodes := datasetNodes df coords labels
    { nodes := nodes ++ pmidNodes nodes pmidMap,
      links := pmidLinks pmidMap ++ sameClusterLinks nodes,
      clusters := clusterSummaries nodes labels }

/- Number of unordered pairs of equal labels in a list. -/
def unorderedEqPairs : List Int → Nat
  | [] => 0
  | c :: rest => rest.countP (fun x => x == c) + unorderedEqPairs rest

/- ----------------------------------------------------------------- -/
/- app/utils/text_processing.py and app/api/routes.py                -/
/- ----------------------------------------------------------------- -/

/- Combined text of preprocess_datasets (text_processing.py lines 36-42). -/
def combinedText (d : Dataset) : String :=
  d.title ++ " " ++ d.experiment_type ++ " " ++ d.summary ++ " " ++ d.organism
    ++ " " ++ d.overall_design

/- create_tfidf_vectors (text_processing.py lines 47-83).  The numeric fit is
   abstracted into fitTfidf; the document-frequency parameter gate of sklearn
   TfidfVectorizer.fit_transform with min_df=2 and max_df=0.7 is modelled
   explicitly: fit_transform raises ValueError whenever
   max_df * n_docs < min_df, that is 0.7 * n < 2, that is 7 * n < 20. -/
def createTfidfVectors (fitTfidf : List String → List (List ℚ))
    (texts : List String) : Except String (List (List ℚ)) :=
  if texts = [] then Except.ok []
  else if 7 * texts.length < 20 then
    Except.error "max_df corresponds to < documents than min_df"
  else Except.ok (fitTfidf texts)

/- Cluster-label attachment of routes.py lines 71-73: datasets at an index
   beyond the label array keep no cluster key. -/
def attachClusters (ds : List (String × Dataset)) (labels : List Int) :
    List ((String × Dataset) × Option Int) :=
  (List.range ds.length).zip ds |>.map (fun p => (p.2, labels.get? p.1))

inductive ApiResult
  | notFound
  | serverError (msg : String)
  | success (datasets : List ((String × Dataset) × Option Int))
      (assoc : AList (List String)) (viz : VizData) (nClusters : Nat)
deriving DecidableEq

/- The fetch_geo_data endpoint core (routes.py lines 44-80) after request
   validation, with the external numeric steps abstracted: fitTfidf for the
   TF-IDF fit, env and aggLabels for the clustering calls, reduce for the
   dimensionality reduction.  A ValueError escaping the pipeline is converted
   by the handler's except branch into a generic error response. -/
def fetchGeoData (pmids : List String) (resolve : String → List String)
    (fetch : String → Option Dataset) (fitTfidf : List String → List (List ℚ))
    (env : ClusterEnv) (aggLabels : Nat → List Int)
    (reduce : List (List ℚ) → List (ℚ × ℚ)) : ApiResult :=
  let r := getGeoDataForPmids pmids resolve fetch
  if r.1 = [] then ApiResult.notFound
  else
    match createTfidfVectors fitTfidf (r.1.map (fun d => combinedText d.2)) with
    | Except.error e => ApiResult.serverError e
    | Except.ok tfidf =>
      let lk := performClustering r.1.length env aggLabels
      let coords := reduce tfidf
      let viz := prepareVisualizationData r.1 coords lk.1 r.2
      ApiResult.success (attachClusters r.1 lk.1) r.2 viz lk.2

/- Concrete instances for the two-dataset scenario of the spec: one PMID P1
   resolving to dataset IDs G1 and G2, both detail fetches succeeding. -/
def dsG1 : Dataset :=
  { geo_id := "G1", title := "heart study", experiment_type := "expression profiling",
    summary := "cardiac expression data", organism := "Homo sapiens",
    overall_design := "case control design" }

def dsG2 : Dataset :=
  { geo_id := "G2", title := "liver study", experiment_type := "expression profiling",
    summary := "hepatic expression data", organism := "Homo sapiens",
    overall_design := "time series design" }

def resolveC8 : String → List String :=
  fun p => if p = "P1" then ["G1", "G2"] else []

def fetchC8 : String → Option Dataset :=
  fun g => if g = "G1" then some dsG1 else if g = "G2" then some dsG2 else none

/- ----------------------------------------------------------------- -/
/- Lemmas about association lists and the TTL cache                  -/
/- ----------------------------------------------------------------- -/

theorem alistLookup_append_of_none {α : Type} (m m2 : AList α) (k : String)
    (h : alistLookup m k = none) : alistLookup (m ++ m2) k = alistLookup m2 k := by
  induction m with
  | nil => simp
  | cons p rest ih =>
    by_cases hp : p.1 = k
    · simp [alistLookup, hp] at h
    · simp only [alistLookup, hp, if_false] at h
      simpa [alistLookup, hp] using ih h

theorem alistLookup_mapReplace {α : Type} (m : AList α) (k : String) (v : α)
    (h : (alistLookup m k).isSome) :
    alistLookup (m.map (fun p => if p.1 = k then (k, v) else p)) k = some v := by
  induction m with
  | nil => simp [alistLookup] at h
  | cons p rest ih =>
    by_cases hp : p.1 = k
    · simp [alistLookup, hp]
    · simp only [alistLookup, hp, if_false] at h
      simpa [alistLookup, hp] using ih h

theorem alistLookup_mapReplace_ne {α : Type} (m : AList α) (k q : String) (v : α)
    (hne : q ≠ k) :
    alistLookup (m.map (fun p => if p.1 = k then (k, v) else p)) q = alistLookup m q := by
  induction m with
  | nil => rfl
  | cons p rest ih =>
    by_cases hp : p.1 = k
    · simp [alistLookup, hp, Ne.symm hne, ih]
    · simp [alistLookup, hp, ih]

theorem alistLookup_insert_self {α : Type} (m : AList α) (k : String) (v : α) :
    alistLookup (alistInsert m k v) k = some v := by
  unfold alistInsert
  cases hl : alistLookup m k with
  | some w =>
    simp only [hl, Option.isSome_some, if_true]
    exact alistLookup_mapReplace m k v (by simp [hl])
  | none =>
    simp only [hl, Option.isSome_none, Bool.false_eq_true, if_false]
    rw [alistLookup_append_of_none _ _ _ hl]
    simp [alistLookup]

theorem alistLookup_append_single_ne {α : Type} (m : AList α) (k q : String) (v : α)
    (hne : q ≠ k) : alistLookup (m ++ [(k, v)]) q = alistLookup m q := by
  induction m with
  | nil => simp [alistLookup, Ne.symm hne]
  | cons p rest ih =>
    by_cases hp : p.1 = q
    · simp [alistLookup, hp]
    · simp [alistLookup, hp, ih]

theorem alistLookup_insert_of_ne {α : Type} (m : AList α) (k q : String) (v : α)
    (hne : q ≠ k) : alistLookup (alistInsert m k v) q = alistLookup m q := by
  unfold alistInsert
  by_cases hs : (alistLookup m k).isSome
  · simp only [hs, if_true]
    exact alistLookup_mapReplace_ne m k q v hne
  · simp only [hs, if_false]
    exact alistLookup_append_single_ne m k q v hne

theorem lookup_addToCache_self {α : Type} (c : Cache α) (k : String) (t : Time) (v : α) :
    alistLookup (addToCache c k t v) k = some (t, v) :=
  alistLookup_insert_self c k (t, v)

theorem getFromCache_addToCache {α : Type} (c : Cache α) (k : String) (t t2 : Time)
    (v : α) :
    getFromCache (addToCache c k t v) k t2
      = if t2 - t < CACHE_EXPIRY then some v else none := by
  unfold getFromCache
  rw [lookup_addToCache_self]

/- ----------------------------------------------------------------- -/
/- C4 and C5                                                         -/
/- ----------------------------------------------------------------- -/

/-- C4: a value stored by add_to_cache at time t is returned unchanged by
get_from_cache at any time t2 with t2 - t < 86400 seconds and is treated as
absent when t2 - t ≥ 86400; a key never stored yields absent; and
get_from_cache only reads the cache, removing nothing. -/
theorem cache_ttl_spec {α : Type} (c : Cache α) (k : String) (t t2 : Time) (v : α) :
    (t2 - t < CACHE_EXPIRY → getFromCache (addToCache c k t v) k t2 = some v)
    ∧ (CACHE_EXPIRY ≤ t2 - t → getFromCache (addToCache c k t v) k t2 = none)
    ∧ (alistLookup c k = none → getFromCache c k t2 = none)
    ∧ getFromCacheST c k t2 = (getFromCache c k t2, c) := by
  refine ⟨?_, ?_, ?_, rfl⟩
  · intro h; rw [getFromCache_addToCache]; simp [h]
  · intro h; rw [getFromCache_addToCache]; simp [not_lt.mpr h]
  · intro h; unfold getFromCache; rw [h]

/-- Witness for cache_ttl_spec at a concrete store and fresh lookup. -/
theorem cache_ttl_spec_witness :
    getFromCache (addToCache ([] : Cache Nat) "k" 0 7) "k" 1 = some 7 :=
  (cache_ttl_spec ([] : Cache Nat) "k" 0 1 7).1 (by norm_num [CACHE_EXPIRY])

theorem respectRateLimit_last_eq {d l n : Time} :
    (respectRateLimit d l n).2 = (respectRateLimit d l n).1 := by
  unfold respectRateLimit
  by_cases h : n - l < d
  · rw [if_pos h]
  · rw [if_neg h]

theorem respectRateLimit_start_le {d l n : Time} : n ≤ (respectRateLimit d l n).1 := by
  unfold respectRateLimit
  by_cases h : n - l < d
  · rw [if_pos h]; simp only; linarith
  · rw [if_neg h]

theorem respectRateLimit_min_gap {d l n : Time} :
    l + d ≤ (respectRateLimit d l n).1 := by
  unfold respectRateLimit
  by_cases h : n - l < d
  · rw [if_pos h]; simp only; linarith
  · rw [if_neg h]; simp only; linarith [not_lt.mp h]

/-- C5: for two consecutive wait calls on one client, call i starting at s1
with stored last-request timestamp, call i+1 starting at s2 no earlier than
call i's return, the return of call i+1 lies at least delay after s1, and the
internal timestamp stored by each call equals its post-sleep return time. -/
theorem rateLimiter_gap_spec (delay last s1 s2 : Time)
    (hseq : (respectRateLimit delay last s1).1 ≤ s2) :
    delay ≤ (respectRateLimit delay (respectRateLimit delay last s1).2 s2).1 - s1
    ∧ (respectRateLimit delay last s1).2 = (respectRateLimit delay last s1).1
    ∧ (respectRateLimit delay (respectRateLimit delay last s1).2 s2).2
        = (respectRateLimit delay (respectRateLimit delay last s1).2 s2).1 := by
  refine ⟨?_, respectRateLimit_last_eq, respectRateLimit_last_eq⟩
  have h1 : s1 ≤ (respectRateLimit delay last s1).1 := respectRateLimit_start_le
  have h2 : (respectRateLimit delay last s1).2 + delay
      ≤ (respectRateLimit delay (respectRateLimit delay last s1).2 s2).1 :=
    respectRateLimit_min_gap
  rw [respectRateLimit_last_eq] at h2 ⊢
  linarith

/-- Witness for rateLimiter_gap_spec with the default 0.34-second delay. -/
theorem rateLimiter_gap_spec_witness :
    (34/100 : Time)
      ≤ (respectRateLimit (34/100) (respectRateLimit (34/100) 0 0).2 1).1 - 0 :=
  (rateLimiter_gap_spec (34/100) 0 0 1 (by norm_num [respectRateLimit])).1

/- ----------------------------------------------------------------- -/
/- C7: get_geo_ids_for_pmid                                          -/
/- ----------------------------------------------------------------- -/

/-- C7: on a cache miss, a network failure returns the empty sequence and
leaves the pmid cache unchanged; a successful request stores the extracted,
possibly empty, ID list in the cache and returns it; and a later call for the
same PMID within the TTL returns the cached list without issuing a request,
whatever the service would answer then. -/
theorem getGeoIdsForPmid_spec (c : Cache (List String)) (pmid : String) (t t2 : Time)
    (hmiss : getFromCache c pmid t = none) (hfresh : t2 - t < CACHE_EXPIRY) :
    (∀ e, getGeoIdsForPmid c pmid t (Except.error e) = ([], c, true))
    ∧ (∀ r, getGeoIdsForPmid c pmid t (Except.ok r)
        = (extractGeoIds r, addToCache c pmid t (extractGeoIds r), true))
    ∧ (∀ r resp2,
        getGeoIdsForPmid (addToCache c pmid t (extractGeoIds r)) pmid t2 resp2
          = (extractGeoIds r, addToCache c pmid t (extractGeoIds r), false)) := by
  refine ⟨?_, ?_, ?_⟩
  · intro e; unfold getGeoIdsForPmid; rw [hmiss]
  · intro r; unfold getGeoIdsForPmid; rw [hmiss]
  · intro r resp2
    unfold getGeoIdsForPmid
    rw [getFromCache_addToCache]
    simp [hfresh]

/-- Witness for getGeoIdsForPmid_spec: a fetched ID list is served from the
cache one second later without a request. -/
theorem getGeoIdsForPmid_spec_witness :
    getGeoIdsForPmid
        (addToCache ([] : Cache (List String)) "17284678" 0
          (extractGeoIds ⟨some [⟨"pubmed_gds", ["200090560"]⟩]⟩))
        "17284678" 1 (Except.error ())
      = (extractGeoIds ⟨some [⟨"pubmed_gds", ["200090560"]⟩]⟩,
         addToCache ([] : Cache (List String)) "17284678" 0
           (extractGeoIds ⟨some [⟨"pubmed_gds", ["200090560"]⟩]⟩), false) :=
  (getGeoIdsForPmid_spec [] "17284678" 0 1 rfl
      (by norm_num [CACHE_EXPIRY])).2.2
    ⟨some [⟨"pubmed_gds", ["200090560"]⟩]⟩ (Except.error ())

/- ----------------------------------------------------------------- -/
/- C6: get_geo_dataset_details                                       -/
/- ----------------------------------------------------------------- -/

theorem applySubItems_title (d : Dataset) (subs : List SubItem) :
    (applySubItems d subs).title = d.title := by
  induction subs generalizing d with
  | nil => rfl
  | cons s rest ih =>
    show (applySubItems _ rest).title = _
    rw [ih]
    by_cases h : s.nameAttr = "description" ∧ containsDesign (s.text.getD "")
    · simp [h]
    · simp [h]

theorem applySubItems_summary (d : Dataset) (subs : List SubItem) :
    (applySubItems d subs).summary = d.summary := by
  induction subs generalizing d with
  | nil => rfl
  | cons s rest ih =>
    show (applySubItems _ rest).summary = _
    rw [ih]
    by_cases h : s.nameAttr = "description" ∧ containsDesign (s.text.getD "")
    · simp [h]
    · simp [h]

theorem applySubItems_experiment (d : Dataset) (subs : List SubItem) :
    (applySubItems d subs).experiment_type = d.experiment_type := by
  induction subs generalizing d with
  | nil => rfl
  | cons s rest ih =>
    show (applySubItems _ rest).experiment_type = _
    rw [ih]
    by_cases h : s.nameAttr = "description" ∧ containsDesign (s.text.getD "")
    · simp [h]
    · simp [h]

theorem applySubItems_organism (d : Dataset) (subs : List SubItem) :
    (applySubItems d subs).organism = d.organism := by
  induction subs generalizing d with
  | nil => rfl
  | cons s rest ih =>
    show (applySubItems _ rest).organism = _
    rw [ih]
    by_cases h : s.nameAttr = "description" ∧ containsDesign (s.text.getD "")
    · simp [h]
    · simp [h]

theorem applySubItems_overall_of_none (d : Dataset) (subs : List SubItem)
    (h : ∀ si ∈ subs, ¬(si.nameAttr = "description" ∧ containsDesign (si.text.getD ""))) :
    (applySubItems d subs).overall_design = d.overall_design := by
  induction subs generalizing d with
  | nil => rfl
  | cons s rest ih =>
    show (applySubItems _ rest).overall_design = _
    rw [ih _ (fun si hsi => h si (List.mem_cons_of_mem _ hsi))]
    simp [h s (List.mem_cons_self _ _)]

theorem applyItem_title (d : Dataset) (it : SummaryItem) (h : it.nameAttr ≠ "title") :
    (applyItem d it).title = d.title := by
  unfold applyItem
  split_ifs <;> simp_all [applySubItems_title]

theorem applyItem_summary (d : Dataset) (it : SummaryItem)
    (h : it.nameAttr ≠ "summary") : (applyItem d it).summary = d.summary := by
  unfold applyItem
  split_ifs <;> simp_all [applySubItems_summary]

theorem applyItem_experiment (d : Dataset) (it : SummaryItem)
    (h : it.nameAttr ≠ "gdsType") :
    (applyItem d it).experiment_type = d.experiment_type := by
  unfold applyItem
  split_ifs <;> simp_all [applySubItems_experiment]

theorem applyItem_organism (d : Dataset) (it : SummaryItem)
    (h : it.nameAttr ≠ "taxon") : (applyItem d it).organism = d.organism := by
  unfold applyItem
  split_ifs <;> simp_all [applySubItems_organism]

theorem applyItem_overall (d : Dataset) (it : SummaryItem)
    (h : it.nameAttr = "gdsSubset" →
      ∀ si ∈ it.subItems,
        ¬(si.nameAttr = "description" ∧ containsDesign (si.text.getD ""))) :
    (applyItem d it).overall_design = d.overall_design := by
  unfold applyItem
  split_ifs with h1 h2 h3 h4 h5
  · simp
  · simp
  · simp
  · simp
  · exact applySubItems_overall_of_none d it.subItems (h h5)
  · rfl

theorem foldl_applyItem_title (d : Dataset) (l : List SummaryItem)
    (h : ∀ it ∈ l, it.nameAttr ≠ "title") : (l.foldl applyItem d).title = d.title := by
  induction l generalizing d with
  | nil => rfl
  | cons it rest ih =>
    show (rest.foldl applyItem (applyItem d it)).title = _
    rw [ih _ (fun x hx => h x (List.mem_cons_of_mem _ hx))]
    exact applyItem_title d it (h it (List.mem_cons_self _ _))

theorem foldl_applyItem_summary (d : Dataset) (l : List SummaryItem)
    (h : ∀ it ∈ l, it.nameAttr ≠ "summary") :
    (l.foldl applyItem d).summary = d.summary := by
  induction l generalizing d with
  | nil => rfl
  | cons it rest ih =>
    show (rest.foldl applyItem (applyItem d it)).summary = _
    rw [ih _ (fun x hx => h x (List.mem_cons_of_mem _ hx))]
    exact applyItem_summary d it (h it (List.mem_cons_self _ _))

theorem foldl_applyItem_experiment (d : Dataset) (l : List SummaryItem)
    (h : ∀ it ∈ l, it.nameAttr ≠ "gdsType") :
    (l.foldl applyItem d).experiment_type = d.experiment_type := by
  induction l generalizing d with
  | nil => rfl
  | cons it rest ih =>
    show (rest.foldl applyItem (applyItem d it)).experiment_type = _
    rw [ih _ (fun x hx => h x (List.mem_cons_of_mem _ hx))]
    exact applyItem_experiment d it (h it (List.mem_cons_self _ _))

theorem foldl_applyItem_organism (d : Dataset) (l : List SummaryItem)
    (h : ∀ it ∈ l, it.nameAttr ≠ "taxon") :
    (l.foldl applyItem d).organism = d.organism := by
  induction l generalizing d with
  | nil => rfl
  | cons it rest ih =>
    show (rest.foldl applyItem (applyItem d it)).organism = _
    rw [ih _ (fun x hx => h x (List.mem_cons_of_mem _ hx))]
    exact applyItem_organism d it (h it (List.mem_cons_self _ _))

theorem foldl_applyItem_overall (d : Dataset) (l : List SummaryItem)
    (h : ∀ it ∈ l, it.nameAttr = "gdsSubset" →
      ∀ si ∈ it.subItems,
        ¬(si.nameAttr = "description" ∧ containsDesign (si.text.getD ""))) :
    (l.foldl applyItem d).overall_design = d.overall_design := by
  induction l generalizing d with
  | nil => rfl
  | cons it rest ih =>
    show (rest.foldl applyItem (applyItem d it)).overall_design = _
    rw [ih _ (fun x hx => h x (List.mem_cons_of_mem _ hx))]
    exact applyItem_overall d it (h it (List.mem_cons_self _ _))

/-- C6: on a cache miss, get_geo_dataset_details returns absent exactly on a
network failure or a response without the DocSum node, and in both of those
cases the dataset cache is unchanged; on success the extracted record is
returned and cached, and each of its five text fields missing from the
response defaults to the empty string. -/
theorem getGeoDatasetDetails_spec (c : Cache Dataset) (geoId : String) (now : Time)
    (resp : Except Unit (Option DocSum)) (hmiss : getFromCache c geoId now = none) :
    ((getGeoDatasetDetails c geoId now resp).1 = none
      ↔ resp = Except.error () ∨ resp = Except.ok none)
    ∧ ((getGeoDatasetDetails c geoId now resp).1 = none
        → (getGeoDatasetDetails c geoId now resp).2 = c)
    ∧ (∀ ds, resp = Except.ok (some ds) →
        getGeoDatasetDetails c geoId now resp
          = (some (extractDataset geoId ds),
             addToCache c geoId now (extractDataset geoId ds))
        ∧ ((∀ it ∈ ds.items, it.nameAttr ≠ "title")
            → (extractDataset geoId ds).title = "")
        ∧ ((∀ it ∈ ds.items, it.nameAttr ≠ "summary")
            → (extractDataset geoId ds).summary = "")
        ∧ ((∀ it ∈ ds.items, it.nameAttr ≠ "gdsType")
            → (extractDataset geoId ds).experiment_type = "")
        ∧ ((∀ it ∈ ds.items, it.nameAttr ≠ "taxon")
            → (extractDataset geoId ds).organism = "")
        ∧ ((∀ it ∈ ds.items, it.nameAttr = "gdsSubset" →
              ∀ si ∈ it.subItems,
                ¬(si.nameAttr = "description" ∧ containsDesign (si.text.getD "")))
            → (extractDataset geoId ds).overall_design = "")) := by
  unfold getGeoDatasetDetails
  rw [hmiss]
  refine ⟨?_, ?_, ?_⟩
  · cases resp with
    | error e => cases e; simp
    | ok o =>
      cases o with
      | none => simp
      | some ds => simp
  · cases resp with
    | error e => simp
    | ok o =>
      cases o with
      | none => simp
      | some ds => simp
  · intro ds hds
    subst hds
    refine ⟨rfl, ?_, ?_, ?_, ?_, ?_⟩
    · exact fun h => foldl_applyItem_title _ ds.items h
    · exact fun h => foldl_applyItem_summary _ ds.items h
    · exact fun h => foldl_applyItem_experiment _ ds.items h
    · exact fun h => foldl_applyItem_organism _ ds.items h
    · exact fun h => foldl_applyItem_overall _ ds.items h

/-- Witness for getGeoDatasetDetails_spec: an itemless DocSum yields a cached
record whose fields all default to the empty string. -/
theorem getGeoDatasetDetails_spec_witness :
    getGeoDatasetDetails ([] : Cache Dataset) "200090560" 0 (Except.ok (some ⟨[]⟩))
      = (some (extractDataset "200090560" ⟨[]⟩),
         addToCache ([] : Cache Dataset) "200090560" 0 (extractDataset "200090560" ⟨[]⟩))
    ∧ (extractDataset "200090560" ⟨[]⟩).title = "" := by
  have h := (getGeoDatasetDetails_spec ([] : Cache Dataset) "200090560" 0
      (Except.ok (some ⟨[]⟩)) rfl).2.2 ⟨[]⟩ rfl
  exact ⟨h.1, h.2.1 (by simp)⟩

/- ----------------------------------------------------------------- -/
/- C3: get_geo_data_for_pmids                                        -/
/- ----------------------------------------------------------------- -/

theorem retrievalLoop_datasets (resolve : String → List String)
    (fetch : String → Option Dataset) (pmids : List String)
    (acc : List (String × Dataset) × AList (List String)) :
    (pmids.foldl (retrievalStep resolve fetch) acc).1
      = acc.1 ++ taggedFetches resolve fetch pmids := by
  induction pmids generalizing acc with
  | nil => simp [taggedFetches]
  | cons p rest ih =>
    show (rest.foldl _ (retrievalStep resolve fetch acc p)).1 = _
    rw [ih]
    by_cases hp : resolve p = []
    · simp [retrievalStep, taggedFetches, hp]
    · simp [retrievalStep, taggedFetches, hp, List.append_assoc]

theorem retrievalLoop_map (resolve : String → List String)
    (fetch : String → Option Dataset) (pmids : List String)
    (acc : List (String × Dataset) × AList (List String)) (q : String) :
    alistLookup (pmids.foldl (retrievalStep resolve fetch) acc).2 q
      = if q ∈ pmids ∧ resolve q ≠ [] then some (resolve q)
        else alistLookup acc.2 q := by
  induction pmids generalizing acc with
  | nil => simp
  | cons p rest ih =>
    show alistLookup (rest.foldl _ (retrievalStep resolve fetch acc p)).2 q = _
    rw [ih]
    by_cases hq : q ∈ rest ∧ resolve q ≠ []
    · rw [if_pos hq, if_pos ⟨List.mem_cons_of_mem _ hq.1, hq.2⟩]
    · rw [if_neg hq]
      unfold retrievalStep
      by_cases hp : resolve p = []
      · rw [if_pos hp]
        have hcond : ¬(q ∈ p :: rest ∧ resolve q ≠ []) := by
          intro hc
          rcases List.mem_cons.mp hc.1 with h | h
          · subst h; exact hc.2 hp
          · exact hq ⟨h, hc.2⟩
        rw [if_neg hcond]
      · rw [if_neg hp]
        by_cases hqp : q = p
        · subst hqp
          rw [if_pos ⟨List.mem_cons_self _ _, hp⟩]
          exact alistLookup_insert_self acc.2 q (resolve q)
        · have hcond : ¬(q ∈ p :: rest ∧ resolve q ≠ []) := by
            intro hc
            rcases List.mem_cons.mp hc.1 with h | h
            · exact hqp h
            · exact hq ⟨h, hc.2⟩
          rw [if_neg hcond]
          exact alistLookup_insert_of_ne acc.2 p q (resolve p) hqp

/-- C3: the orchestrator returns exactly the successfully fetched records,
each tagged with its originating PMID and grouped in PMID input order, while
the PMID map holds the full resolved ID list for every input PMID with a
non-empty resolution, independently of detail-fetch success, and no entry for
any other PMID. -/
theorem getGeoDataForPmids_spec (pmids : List String)
    (resolve : String → List String) (fetch : String → Option Dataset) :
    (getGeoDataForPmids pmids resolve fetch).1 = taggedFetches resolve fetch pmids
    ∧ (∀ q, alistLookup (getGeoDataForPmids pmids resolve fetch).2 q
        = if q ∈ pmids ∧ resolve q ≠ [] then some (resolve q) else none) := by
  constructor
  · simpa using retrievalLoop_datasets resolve fetch pmids ([], [])
  · intro q
    simpa using retrievalLoop_map resolve fetch pmids ([], []) q

/-- Witness for getGeoDataForPmids_spec at the concrete one-PMID input. -/
theorem getGeoDataForPmids_spec_witness :
    (getGeoDataForPmids ["P1"] resolveC8 fetchC8).1
      = taggedFetches resolveC8 fetchC8 ["P1"] :=
  (getGeoDataForPmids_spec ["P1"] resolveC8 fetchC8).1

/- ----------------------------------------------------------------- -/
/- Lemmas about eviction                                             -/
/- ----------------------------------------------------------------- -/

theorem minTimestamp_le {α : Type} : ∀ (c : Cache α) (m : Time),
    minTimestamp c = some m → ∀ e ∈ c, m ≤ e.2.1
  | [], m, h => by simp [minTimestamp] at h
  | e :: rest, m, h => by
    intro x hx
    cases hr : minTimestamp rest with
    | none =>
      rw [minTimestamp, hr] at h
      have hm : m = e.2.1 := by injection h with h2; exact h2.symm
      rcases List.mem_cons.mp hx with hx1 | hx1
      · subst hx1; exact le_of_eq hm
      · cases rest with
        | nil => simp at hx1
        | cons f fr =>
          rw [minTimestamp] at hr
          cases hmr : minTimestamp fr <;> simp [hmr] at hr
    | some m2 =>
      rw [minTimestamp, hr] at h
      have hm : m = min e.2.1 m2 := by injection h with h2; exact h2.symm
      rcases List.mem_cons.mp hx with hx1 | hx1
      · subst hx1; rw [hm]; exact min_le_left _ _
      · calc m = min e.2.1 m2 := hm
          _ ≤ m2 := min_le_right _ _
          _ ≤ x.2.1 := minTimestamp_le rest m2 hr x hx1

theorem minTimestamp_mem {α : Type} : ∀ (c : Cache α) (m : Time),
    minTimestamp c = some m → ∃ e ∈ c, e.2.1 = m
  | [], m, h => by simp [minTimestamp] at h
  | e :: rest, m, h => by
    cases hr : minTimestamp rest with
    | none =>
      rw [minTimestamp, hr] at h
      have hm : e.2.1 = m := by injection h
      exact ⟨e, List.mem_cons_self _ _, hm⟩
    | some m2 =>
      rw [minTimestamp, hr] at h
      have hm : min e.2.1 m2 = m := by injection h
      rcases le_or_lt e.2.1 m2 with hle | hlt
      · exact ⟨e, List.mem_cons_self _ _, by rw [← hm, min_eq_left hle]⟩
      · rcases minTimestamp_mem rest m2 hr with ⟨x, hx, hxm⟩
        exact ⟨x, List.mem_cons_of_mem _ hx,
          by rw [hxm, ← hm, min_eq_right (le_of_lt hlt)]⟩

theorem minTimestamp_isSome {α : Type} (c : Cache α) (h : c ≠ []) :
    (minTimestamp c).isSome := by
  cases c with
  | nil => exact absurd rfl h
  | cons e rest =>
    rw [minTimestamp]
    cases minTimestamp rest <;> simp

theorem removeFirstWithTs_decomp {α : Type} : ∀ (c : Cache α) (m : Time),
    (∃ e ∈ c, e.2.1 = m) →
    ∃ pre x post, c = pre ++ x :: post ∧ x.2.1 = m
      ∧ (∀ y ∈ pre, y.2.1 ≠ m) ∧ removeFirstWithTs c m = pre ++ post
  | [], m, h => by simp at h
  | e :: rest, m, h => by
    by_cases he : e.2.1 = m
    · exact ⟨[], e, rest, by simp, he, by simp, by simp [removeFirstWithTs, he]⟩
    · have hrest : ∃ x ∈ rest, x.2.1 = m := by
        rcases h with ⟨x, hx, hxm⟩
        rcases List.mem_cons.mp hx with h1 | h1
        · subst h1; exact absurd hxm he
        · exact ⟨x, h1, hxm⟩
      rcases removeFirstWithTs_decomp rest m hrest with ⟨pre, x, post, hc, hxm, hpre, hrm⟩
      refine ⟨e :: pre, x, post, by rw [hc]; rfl, hxm, ?_, ?_⟩
      · intro y hy
        rcases List.mem_cons.mp hy with h1 | h1
        · subst h1; exact he
        · exact hpre y h1
      · simp [removeFirstWithTs, he, hrm]

theorem mem_removeFirstWithTs {α : Type} : ∀ (c : Cache α) (m : Time) (x : String × Time × α),
    x ∈ removeFirstWithTs c m → x ∈ c
  | [], _, _, h => by simp [removeFirstWithTs] at h
  | e :: rest, m, x, h => by
    rw [removeFirstWithTs] at h
    by_cases he : e.2.1 = m
    · rw [if_pos he] at h
      exact List.mem_cons_of_mem _ h
    · rw [if_neg he] at h
      rcases List.mem_cons.mp h with h1 | h1
      · subst h1; exact List.mem_cons_self _ _
      · exact List.mem_cons_of_mem _ (mem_removeFirstWithTs rest m x h1)

theorem lookup_removeFirstWithTs {α : Type} : ∀ (c : Cache α) (m : Time) (k : String),
    (∀ e ∈ c, e.1 = k → e.2.1 ≠ m) →
    alistLookup (removeFirstWithTs c m) k = alistLookup c k
  | [], _, _, _ => rfl
  | e :: rest, m, k, h => by
    rw [removeFirstWithTs]
    by_cases he : e.2.1 = m
    · rw [if_pos he]
      have hek : e.1 ≠ k := fun hk => h e (List.mem_cons_self _ _) hk he
      rw [alistLookup, if_neg hek]
    · rw [if_neg he]
      by_cases hek : e.1 = k
      · rw [alistLookup, alistLookup, if_pos hek, if_pos hek]
      · rw [alistLookup, alistLookup, if_neg hek, if_neg hek]
        exact lookup_removeFirstWithTs rest m k
          (fun x hx => h x (List.mem_cons_of_mem _ hx))

theorem alistLookup_none_keys {α : Type} : ∀ (m : AList α) (k : String),
    alistLookup m k = none → ∀ p ∈ m, p.1 ≠ k
  | [], _, _, p, hp => by simp at hp
  | q :: rest, k, h, p, hp => by
    rw [alistLookup] at h
    by_cases hqk : q.1 = k
    · rw [if_pos hqk] at h; exact absurd h (by simp)
    · rw [if_neg hqk] at h
      rcases List.mem_cons.mp hp with h1 | h1
      · subst h1; exact hqk
      · exact alistLookup_none_keys rest k h p h1

theorem length_addToCache {α : Type} (c : Cache α) (k : String) (t : Time) (v : α) :
    (addToCache c k t v).length
      = if (alistLookup c k).isSome then c.length else c.length + 1 := by
  unfold addToCache alistInsert
  by_cases hs : (alistLookup c k).isSome
  · rw [if_pos hs, if_pos hs, List.length_map]
  · rw [if_neg hs, if_neg hs, List.length_append]
    rfl

theorem mem_addToCache_key_val {α : Type} (c : Cache α) (k : String) (t : Time) (v : α) :
    ∀ x ∈ addToCache c k t v, x.1 = k → x.2 = (t, v) := by
  unfold addToCache alistInsert
  by_cases hs : (alistLookup c k).isSome
  · rw [if_pos hs]
    intro x hx hxk
    rcases List.mem_map.mp hx with ⟨p, hp, hpx⟩
    by_cases hpk : p.1 = k
    · rw [if_pos hpk] at hpx
      rw [← hpx]
    · rw [if_neg hpk] at hpx
      subst hpx; exact absurd hxk hpk
  · rw [if_neg hs]
    intro x hx hxk
    rcases List.mem_append.mp hx with h1 | h1
    · have hnone : alistLookup c k = none :=
        Option.not_isSome_iff_eq_none.mp hs
      exact absurd hxk (alistLookup_none_keys c k hnone x h1)
    · have : x = (k, (t, v)) := by simpa using h1
      rw [this]

theorem mem_addToCache_src {α : Type} (c : Cache α) (k : String) (t : Time) (v : α) :
    ∀ x ∈ addToCache c k t v, x.1 = k ∨ x ∈ c := by
  unfold addToCache alistInsert
  by_cases hs : (alistLookup c k).isSome
  · rw [if_pos hs]
    intro x hx
    rcases List.mem_map.mp hx with ⟨p, hp, hpx⟩
    by_cases hpk : p.1 = k
    · rw [if_pos hpk] at hpx; left; rw [← hpx]
    · rw [if_neg hpk] at hpx; right; rw [← hpx]; exact hp
  · rw [if_neg hs]
    intro x hx
    rcases List.mem_append.mp hx with h1 | h1
    · right; exact h1
    · left
      have : x = (k, (t, v)) := by simpa using h1
      rw [this]

theorem length_evictOldest {α : Type} (c : Cache α) (h : c ≠ []) :
    (evictOldest c).length + 1 = c.length := by
  unfold evictOldest
  cases hm : minTimestamp c with
  | none =>
    have := minTimestamp_isSome c h
    rw [hm] at this
    simp at this
  | some m =>
    rcases removeFirstWithTs_decomp c m (minTimestamp_mem c m hm) with
      ⟨pre, x, post, hc, _, _, hrm⟩
    show (removeFirstWithTs c m).length + 1 = c.length
    rw [hrm, hc]
    simp
    omega

/- ----------------------------------------------------------------- -/
/- C9: cached_result size bound and eviction                         -/
/- ----------------------------------------------------------------- -/

/-- C9 counterexample: with max_size = 0 the store step evicts the very entry
it just inserted, even though all timestamps present are distinct. -/
theorem putStep_evicts_fresh_entry_cex :
    putStep ([] : Cache Nat) "a" 0 5 0 = []
    ∧ alistLookup (putStep ([] : Cache Nat) "a" 0 5 0) "a" = none := by
  constructor <;> rfl

/-- C9 (amended): after every store the cache holds at most max_size entries;
when a store triggers eviction, exactly one entry with minimal timestamp (the
first such entry in insertion order) is removed; and when max_size ≥ 1 and the
timestamp of the new entry is strictly newer than every stored timestamp — in
particular whenever timestamps are distinct, since stores use the current
clock — the just-inserted entry is never the one evicted. -/
theorem putStep_amended_spec {α : Type} (c : Cache α) (k : String) (t : Time) (v : α)
    (maxSize : Nat) (hlen : c.length ≤ maxSize) :
    (putStep c k t v maxSize).length ≤ maxSize
    ∧ (maxSize < (addToCache c k t v).length →
        ∃ pre x post, addToCache c k t v = pre ++ x :: post
          ∧ putStep c k t v maxSize = pre ++ post
          ∧ (∀ y ∈ addToCache c k t v, x.2.1 ≤ y.2.1)
          ∧ (∀ y ∈ pre, y.2.1 ≠ x.2.1))
    ∧ (1 ≤ maxSize → (∀ e ∈ c, e.2.1 < t) →
        alistLookup (putStep c k t v maxSize) k = some (t, v)) := by
  have hlen1 : (addToCache c k t v).length ≤ c.length + 1 := by
    rw [length_addToCache]
    by_cases hs : (alistLookup c k).isSome
    · rw [if_pos hs]; omega
    · rw [if_neg hs]
  have hne : ∀ hv : maxSize < (addToCache c k t v).length, addToCache c k t v ≠ [] := by
    intro hv habs
    rw [habs] at hv
    simp at hv
  refine ⟨?_, ?_, ?_⟩
  · unfold putStep
    by_cases hv : maxSize < (addToCache c k t v).length
    · rw [if_pos hv]
      have := length_evictOldest (addToCache c k t v) (hne hv)
      omega
    · rw [if_neg hv]
      omega
  · intro hv
    have hc1 := hne hv
    unfold putStep
    rw [if_pos hv]
    unfold evictOldest
    cases hm : minTimestamp (addToCache c k t v) with
    | none =>
      have := minTimestamp_isSome _ hc1
      rw [hm] at this
      simp at this
    | some m =>
      rcases removeFirstWithTs_decomp _ m (minTimestamp_mem _ m hm) with
        ⟨pre, x, post, hc, hxm, hpre, hrm⟩
      refine ⟨pre, x, post, hc, hrm, ?_, ?_⟩
      · intro y hy
        rw [hxm]
        exact minTimestamp_le _ m hm y hy
      · intro y hy
        rw [hxm]
        exact hpre y hy
  · intro hms hts
    unfold putStep
    by_cases hv : maxSize < (addToCache c k t v).length
    · rw [if_pos hv]
      -- eviction is only possible on the append branch: the overwrite branch
      -- keeps the length at c.length ≤ maxSize
      have hsnone : ¬(alistLookup c k).isSome := by
        intro hs
        rw [length_addToCache, if_pos hs] at hv
        omega
      have hnone : alistLookup c k = none := Option.not_isSome_iff_eq_none.mp hsnone
      have hc1 : addToCache c k t v ≠ [] := hne hv
      unfold evictOldest
      cases hm : minTimestamp (addToCache c k t v) with
      | none =>
        have := minTimestamp_isSome _ hc1
        rw [hm] at this
        simp at this
      | some m =>
        -- c is non-empty, so the minimum is strictly older than t
        have hclen : 1 ≤ c.length := by
          rw [length_addToCache, if_neg hsnone] at hv
          omega
        have hcne : c ≠ [] := by
          intro habs; rw [habs] at hclen; simp at hclen
        rcases List.exists_mem_of_ne_nil c hcne with ⟨e0, he0⟩
        have he0mem : e0 ∈ addToCache c k t v := by
          unfold addToCache alistInsert
          rw [if_neg hsnone]
          exact List.mem_append_left _ he0
        have hmlt : m < t :=
          lt_of_le_of_lt (minTimestamp_le _ m hm e0 he0mem) (hts e0 he0)
        rw [lookup_removeFirstWithTs _ m k ?_]
        · exact lookup_addToCache_self c k t v
        · intro e he hek
          have := mem_addToCache_key_val c k t v e he hek
          intro habs
          rw [this] at habs
          simp only at habs
          rw [habs] at hmlt
          exact lt_irrefl _ hmlt
    · rw [if_neg hv]
      exact lookup_addToCache_self c k t v

/-- Witness for putStep_amended_spec: a store into a one-slot cache holding an
older entry evicts the old entry and keeps the fresh one. -/
theorem putStep_amended_spec_witness :
    (putStep [("b", ((0 : Time), (1 : Nat)))] "a" 1 2 1).length ≤ 1
    ∧ alistLookup (putStep [("b", ((0 : Time), (1 : Nat)))] "a" 1 2 1) "a"
        = some (1, 2) := by
  have h := putStep_amended_spec [("b", ((0 : Time), (1 : Nat)))] "a" 1 2 1 (by simp)
  refine ⟨h.1, h.2.2 (by omega) ?_⟩
  intro e he
  have : e = ("b", ((0 : Time), (1 : Nat))) := by simpa using he
  rw [this]
  norm_num

/- ----------------------------------------------------------------- -/
/- C10: a None result is cached but never served                     -/
/- ----------------------------------------------------------------- -/

theorem mem_putStep {α : Type} (c : Cache α) (k : String) (t : Time) (v : α)
    (ms : Nat) : ∀ x ∈ putStep c k t v ms, x ∈ addToCache c k t v := by
  unfold putStep
  by_cases hv : ms < (addToCache c k t v).length
  · rw [if_pos hv]
    intro x hx
    unfold evictOldest at hx
    cases hm : minTimestamp (addToCache c k t v) with
    | none => rw [hm] at hx; exact hx
    | some m =>
      rw [hm] at hx
      exact mem_removeFirstWithTs _ m x hx
  · rw [if_neg hv]
    intro x hx
    exact hx

theorem alistLookup_mem {α : Type} : ∀ (m : AList α) (k : String) (w : α),
    alistLookup m k = some w → ∃ x ∈ m, x.1 = k ∧ x.2 = w
  | [], _, _, h => by simp [alistLookup] at h
  | p :: rest, k, w, h => by
    rw [alistLookup] at h
    by_cases hpk : p.1 = k
    · rw [if_pos hpk] at h
      exact ⟨p, List.mem_cons_self _ _, hpk, by injection h⟩
    · rw [if_neg hpk] at h
      rcases alistLookup_mem rest k w h with ⟨x, hx, hxk, hxw⟩
      exact ⟨x, List.mem_cons_of_mem _ hx, hxk, hxw⟩

theorem getFromCache_putStep_none_join {V : Type} (c : Cache (Option V)) (k : String)
    (t t2 : Time) (ms : Nat) :
    (getFromCache (putStep c k t (none : Option V) ms) k t2).join = none := by
  unfold getFromCache
  cases hl : alistLookup (putStep c k t (none : Option V) ms) k with
  | none => rfl
  | some w =>
    rcases alistLookup_mem _ k w hl with ⟨x, hx, hxk, hxw⟩
    have hval : x.2 = (t, (none : Option V)) :=
      mem_addToCache_key_val c k t none x (mem_putStep c k t none ms x hx) hxk
    have hw : w = (t, (none : Option V)) := by rw [← hxw, hval]
    rw [hw]
    show (if t2 - t < CACHE_EXPIRY then some (none : Option V) else none).join = none
    by_cases hf : t2 - t < CACHE_EXPIRY
    · rw [if_pos hf]; rfl
    · rw [if_neg hf]; rfl

/-- C10: when the wrapped function returns None, the wrapper writes that
result into its cache but can never serve it, because get_from_cache signals
a stored None and a missing key identically; every later call with the same
key therefore runs the function again. -/
theorem cachedResult_none_not_served {V : Type} (c : Cache (Option V)) (k : String)
    (t t2 : Time) (ms ms2 : Nat) (fres2 : Option V)
    (hmiss : (getFromCache c k t).join = none) :
    cachedCall c k t ms none = (none, putStep c k t (none : Option V) ms, true)
    ∧ (cachedCall (putStep c k t (none : Option V) ms) k t2 ms2 fres2).2.2 = true := by
  constructor
  · unfold cachedCall
    rw [hmiss]
  · unfold cachedCall
    rw [getFromCache_putStep_none_join c k t t2 ms]

/-- Witness for cachedResult_none_not_served: a None result stored at time 0
is recomputed at time 1. -/
theorem cachedResult_none_not_served_witness :
    cachedCall ([] : Cache (Option Nat)) "x" 0 128 none
      = (none, putStep ([] : Cache (Option Nat)) "x" 0 (none : Option Nat) 128, true)
    ∧ (cachedCall (putStep ([] : Cache (Option Nat)) "x" 0 (none : Option Nat) 128)
        "x" 1 128 (some 5)).2.2 = true :=
  cachedResult_none_not_served ([] : Cache (Option Nat)) "x" 0 1 128 128 (some 5) rfl

/- ----------------------------------------------------------------- -/
/- C1: estimate_optimal_clusters                                     -/
/- ----------------------------------------------------------------- -/

theorem argmaxFirst_spec : ∀ (l : List (Nat × ℚ)) (best : Nat × ℚ),
    (∀ p ∈ l, best.1 < p.1) →
    List.Pairwise (fun a b : Nat × ℚ => a.1 < b.1) l →
    (argmaxFirst best l = best ∨ argmaxFirst best l ∈ l)
    ∧ best.2 ≤ (argmaxFirst best l).2
    ∧ (∀ p ∈ l, p.2 ≤ (argmaxFirst best l).2)
    ∧ (best.2 = (argmaxFirst best l).2 → (argmaxFirst best l).1 ≤ best.1)
    ∧ (∀ p ∈ l, p.2 = (argmaxFirst best l).2 → (argmaxFirst best l).1 ≤ p.1)
  | [], best, _, _ => by simp [argmaxFirst]
  | x :: rest, best, hlt, hpw => by
    rw [argmaxFirst]
    rcases List.pairwise_cons.mp hpw with ⟨hx, hpwr⟩
    by_cases hbx : best.2 < x.2
    · rw [if_pos hbx]
      have ih := argmaxFirst_spec rest x hx hpwr
      refine ⟨?_, ?_, ?_, ?_, ?_⟩
      · rcases ih.1 with h | h
        · right; rw [h]; exact List.mem_cons_self _ _
        · right; exact List.mem_cons_of_mem _ h
      · exact le_trans (le_of_lt hbx) ih.2.1
      · intro p hp
        rcases List.mem_cons.mp hp with h | h
        · rw [h]; exact ih.2.1
        · exact ih.2.2.1 p h
      · intro habs
        exact absurd (lt_of_lt_of_le hbx ih.2.1) (by rw [← habs]; exact lt_irrefl _)
      · intro p hp hps
        rcases List.mem_cons.mp hp with h | h
        · subst h; exact ih.2.2.2.1 hps
        · exact ih.2.2.2.2 p h hps
    · rw [if_neg hbx]
      have hxb : x.2 ≤ best.2 := le_of_not_lt hbx
      have hb2 : ∀ p ∈ rest, best.1 < p.1 :=
        fun p hp => hlt p (List.mem_cons_of_mem _ hp)
      have ih := argmaxFirst_spec rest best hb2 hpwr
      refine ⟨?_, ih.2.1, ?_, ih.2.2.2.1, ?_⟩
      · rcases ih.1 with h | h
        · left; exact h
        · right; exact List.mem_cons_of_mem _ h
      · intro p hp
        rcases List.mem_cons.mp hp with h | h
        · rw [h]; exact le_trans hxb ih.2.1
        · exact ih.2.2.1 p h
      · intro p hp hps
        rcases List.mem_cons.mp hp with h | h
        · subst h
          have hbr : best.2 = (argmaxFirst best rest).2 :=
            le_antisymm ih.2.1 (hps ▸ hxb)
          have h1 : (argmaxFirst best rest).1 ≤ best.1 := ih.2.2.2.1 hbr
          exact le_of_lt (lt_of_le_of_lt h1 (hlt p (List.mem_cons_self _ _)))
        · exact ih.2.2.2.2 p h hps

theorem silhouetteScores_fn_fst (n : Nat) (env : ClusterEnv) (k : Nat) (p : Nat × ℚ)
    (h : (if n < k then none
          else if (env.labels k).dedup.length = 1 then none
          else (env.score k).map (fun s => (k, s))) = some p) : p.1 = k := by
  split_ifs at h
  cases hs : env.score k with
  | none =>
    rw [hs] at h
    have h2 : (none : Option (Nat × ℚ)) = some p := h
    exact absurd h2 (by simp)
  | some s =>
    rw [hs] at h
    have h2 : some (k, s) = some p := h
    injection h2 with h3
    rw [← h3]

theorem silhouetteScores_mem (n maxClusters : Nat) (env : ClusterEnv) (p : Nat × ℚ)
    (hp : p ∈ silhouetteScores n maxClusters env) :
    2 ≤ p.1 ∧ p.1 ≤ min maxClusters (n - 1) := by
  unfold silhouetteScores at hp
  rcases List.mem_filterMap.mp hp with ⟨k, hk, hfk⟩
  rcases List.mem_range'_1.mp hk with ⟨hk1, hk2⟩
  have hpk : p.1 = k := silhouetteScores_fn_fst n env k p hfk
  rw [hpk]
  omega

theorem silhouetteScores_pairwise (n maxClusters : Nat) (env : ClusterEnv) :
    List.Pairwise (fun a b : Nat × ℚ => a.1 < b.1)
      (silhouetteScores n maxClusters env) := by
  unfold silhouetteScores
  refine List.Pairwise.filterMap _ ?_ (List.pairwise_lt_range' 2 _)
  intro a b hab c hc d hd
  have hca : c.1 = a := silhouetteScores_fn_fst n env a c hc
  have hdb : d.1 = b := silhouetteScores_fn_fst n env b d hd
  rw [hca, hdb]
  exact hab

theorem estimateOptimalClusters_eq_one (n maxClusters : Nat) (env : ClusterEnv)
    (h : n < 2 ∨ min maxClusters (n - 1) ≤ 1) :
    estimateOptimalClusters n maxClusters env = 1 := by
  unfold estimateOptimalClusters
  rcases h with h | h
  · rw [if_pos h]
  · by_cases h1 : n < 2
    · rw [if_pos h1]
    · rw [if_neg h1, if_pos h]

theorem estimateOptimalClusters_eq_fallback (n maxClusters : Nat) (env : ClusterEnv)
    (h1 : ¬ n < 2) (h2 : ¬ min maxClusters (n - 1) ≤ 1)
    (hsc : silhouetteScores n maxClusters env = []) :
    estimateOptimalClusters n maxClusters env = min 3 (n - 1) := by
  unfold estimateOptimalClusters
  rw [if_neg h1, if_neg h2, hsc]
  show (if 1 < n then min 3 (n - 1) else 1) = min 3 (n - 1)
  rw [if_pos (by omega)]

theorem estimateOptimalClusters_eq_argmax (n maxClusters : Nat) (env : ClusterEnv)
    (s : Nat × ℚ) (rest : List (Nat × ℚ)) (h1 : ¬ n < 2)
    (h2 : ¬ min maxClusters (n - 1) ≤ 1)
    (hsc : silhouetteScores n maxClusters env = s :: rest) :
    estimateOptimalClusters n maxClusters env = (argmaxFirst s rest).1 := by
  unfold estimateOptimalClusters
  rw [if_neg h1, if_neg h2, hsc]

theorem estimateOptimalClusters_mem_scores (n maxClusters : Nat) (env : ClusterEnv)
    (s : Nat × ℚ) (rest : List (Nat × ℚ)) (h1 : ¬ n < 2)
    (h2 : ¬ min maxClusters (n - 1) ≤ 1)
    (hsc : silhouetteScores n maxClusters env = s :: rest) :
    argmaxFirst s rest ∈ silhouetteScores n maxClusters env
    ∧ (∀ p ∈ silhouetteScores n maxClusters env, p.2 ≤ (argmaxFirst s rest).2)
    ∧ (∀ p ∈ silhouetteScores n maxClusters env,
        p.2 = (argmaxFirst s rest).2 → (argmaxFirst s rest).1 ≤ p.1) := by
  have hpw := silhouetteScores_pairwise n maxClusters env
  rw [hsc] at hpw
  rcases List.pairwise_cons.mp hpw with ⟨hlt, hpwr⟩
  have spec := argmaxFirst_spec rest s hlt hpwr
  refine ⟨?_, ?_, ?_⟩
  · rw [hsc]
    rcases spec.1 with h | h
    · rw [h]; exact List.mem_cons_self _ _
    · exact List.mem_cons_of_mem _ h
  · intro p hp
    rw [hsc] at hp
    rcases List.mem_cons.mp hp with h | h
    · rw [h]; exact spec.2.1
    · exact spec.2.2.1 p h
  · intro p hp hps
    rw [hsc] at hp
    rcases List.mem_cons.mp hp with h | h
    · subst h; exact spec.2.2.2.1 hps
    · exact spec.2.2.2.2 p h hps

/-- C1 counterexample: with maxClusters = 2 and n = 4, when every candidate
silhouette computation fails (the except-ValueError path of the loop), the
fallback returns min(3, n-1) = 3, which exceeds min(maxClusters, n-1) = 2 —
so the claimed bound does not hold for every maxClusters. -/
theorem estimateOptimalClusters_exceeds_bound_cex :
    estimateOptimalClusters 4 2 ⟨fun _ => [0, 1, 0, 1], fun _ => none⟩ = 3
    ∧ min 2 (4 - 1) = 2 := by
  constructor
  · rfl
  · rfl

/-- C1 (amended): estimate_optimal_clusters always returns k ≥ 1, returns
k = 1 when n < 2 or min(maxClusters, n−1) ≤ 1, and whenever at least one
candidate obtains a silhouette score it returns the lowest k attaining the
highest score, never exceeding min(maxClusters, n−1); but when every
candidate is skipped it returns the fallback min(3, n−1), which can exceed
min(maxClusters, n−1) when maxClusters = 2 and n ≥ 4. -/
theorem estimateOptimalClusters_amended_spec (n maxClusters : Nat) (env : ClusterEnv)
    (hn : 1 ≤ n) :
    1 ≤ estimateOptimalClusters n maxClusters env
    ∧ ((n < 2 ∨ min maxClusters (n - 1) ≤ 1) →
        estimateOptimalClusters n maxClusters env = 1)
    ∧ (¬ n < 2 → ¬ min maxClusters (n - 1) ≤ 1 →
        silhouetteScores n maxClusters env ≠ [] →
        estimateOptimalClusters n maxClusters env ≤ min maxClusters (n - 1)
        ∧ ∃ s, (estimateOptimalClusters n maxClusters env, s)
              ∈ silhouetteScores n maxClusters env
            ∧ (∀ p ∈ silhouetteScores n maxClusters env, p.2 ≤ s)
            ∧ (∀ p ∈ silhouetteScores n maxClusters env, p.2 = s →
                estimateOptimalClusters n maxClusters env ≤ p.1))
    ∧ (¬ n < 2 → ¬ min maxClusters (n - 1) ≤ 1 →
        silhouetteScores n maxClusters env = [] →
        estimateOptimalClusters n maxClusters env = min 3 (n - 1)) := by
  refine ⟨?_, estimateOptimalClusters_eq_one n maxClusters env, ?_,
    estimateOptimalClusters_eq_fallback n maxClusters env⟩
  · by_cases h1 : n < 2
    · rw [estimateOptimalClusters_eq_one n maxClusters env (Or.inl h1)]
    · by_cases h2 : min maxClusters (n - 1) ≤ 1
      · rw [estimateOptimalClusters_eq_one n maxClusters env (Or.inr h2)]
      · cases hsc : silhouetteScores n maxClusters env with
        | nil =>
          rw [estimateOptimalClusters_eq_fallback n maxClusters env h1 h2 hsc]
          omega
        | cons s rest =>
          rw [estimateOptimalClusters_eq_argmax n maxClusters env s rest h1 h2 hsc]
          have hmem := (estimateOptimalClusters_mem_scores n maxClusters env s rest
            h1 h2 hsc).1
          have := (silhouetteScores_mem n maxClusters env _ hmem).1
          omega
  · intro h1 h2 hne
    cases hsc : silhouetteScores n maxClusters env with
    | nil => exact absurd hsc hne
    | cons s rest =>
      have heq := estimateOptimalClusters_eq_argmax n maxClusters env s rest h1 h2 hsc
      rcases estimateOptimalClusters_mem_scores n maxClusters env s rest h1 h2 hsc with
        ⟨hmem, hmax, hties⟩
      have hbound := (silhouetteScores_mem n maxClusters env _ hmem).2
      rw [hsc] at hmem hmax hties
      constructor
      · rw [heq]; exact hbound
      · refine ⟨(argmaxFirst s rest).2, ?_, hmax, ?_⟩
        · rw [heq, Prod.mk.eta]
          exact hmem
        · intro p hp hps
          rw [heq]
          exact hties p hp hps

/-- Witness for estimateOptimalClusters_amended_spec: three records with a
single scored candidate k = 2 give a cluster count within the bound. -/
theorem estimateOptimalClusters_amended_spec_witness :
    estimateOptimalClusters 3 10 ⟨fun _ => [0, 1, 0], fun _ => some 0⟩ ≤ min 10 (3 - 1) :=
  ((estimateOptimalClusters_amended_spec 3 10 ⟨fun _ => [0, 1, 0], fun _ => some 0⟩
      (by omega)).2.2.1 (by omega) (by omega) (by decide)).1

/- ----------------------------------------------------------------- -/
/- C2: link counts of prepare_visualization_data                     -/
/- ----------------------------------------------------------------- -/

theorem mem_pmidLinks : ∀ (pm : AList (List String)) (l : Link),
    l ∈ pmidLinks pm → l.ltype = "pmid_to_dataset"
  | [], _, h => by simp [pmidLinks] at h
  | p :: rest, l, h => by
    rw [pmidLinks, List.foldr_cons] at h
    rcases List.mem_append.mp h with h1 | h1
    · rcases List.mem_map.mp h1 with ⟨g, _, hg⟩
      rw [← hg]
    · exact mem_pmidLinks rest l h1

theorem mem_sameClusterLinks : ∀ (ns : List GraphNode) (l : Link),
    l ∈ sameClusterLinks ns → l.ltype = "same_cluster"
  | [], _, h => by simp [sameClusterLinks] at h
  | node :: rest, l, h => by
    rw [sameClusterLinks] at h
    rcases List.mem_append.mp h with h1 | h1
    · rcases List.mem_map.mp h1 with ⟨m, _, hm⟩
      rw [← hm]
    · exact mem_sameClusterLinks rest l h1

theorem sameClusterLinks_count : ∀ ns : List GraphNode,
    (sameClusterLinks ns).countP (fun l => l.ltype == "same_cluster")
      = unorderedEqPairs (ns.map (fun node => node.cluster))
  | [] => rfl
  | node :: rest => by
    rw [sameClusterLinks, List.countP_append, sameClusterLinks_count rest]
    have hblock :
        ((rest.filter (fun other => other.cluster == node.cluster)).map
            (fun other =>
              { source := node.id, target := other.id, ltype := "same_cluster" : Link })).countP
          (fun l => l.ltype == "same_cluster")
        = (rest.map (fun n2 => n2.cluster)).countP (fun x => x == node.cluster) := by
      rw [List.countP_eq_length.mpr (by intro a ha; rcases List.mem_map.mp ha with ⟨m, _, hm⟩; rw [← hm]; rfl)]
      rw [List.length_map, ← List.countP_eq_length_filter, List.countP_map]
      rfl
    rw [hblock]
    show _ = unorderedEqPairs (node.cluster :: rest.map (fun n2 => n2.cluster))
    rw [unorderedEqPairs]

theorem pmidLinks_count : ∀ pm : AList (List String),
    (pmidLinks pm).countP (fun l => l.ltype == "pmid_to_dataset")
      = (pm.map (fun p => p.2.length)).sum
  | [] => rfl
  | p :: rest => by
    rw [pmidLinks, List.foldr_cons]
    show ((p.2.map _) ++ pmidLinks rest).countP _ = _
    rw [List.countP_append, pmidLinks_count rest]
    have hblock :
        ((p.2.map (fun g =>
            { source := p.1, target := g, ltype := "pmid_to_dataset" : Link })).countP
          (fun l => l.ltype == "pmid_to_dataset")) = p.2.length := by
      rw [List.countP_eq_length.mpr (by intro a ha; rcases List.mem_map.mp ha with ⟨g, _, hg⟩; rw [← hg]; rfl)]
      rw [List.length_map]
    rw [hblock]
    simp

theorem pmidLinks_count_same (pm : AList (List String)) :
    (pmidLinks pm).countP (fun l => l.ltype == "same_cluster") = 0 := by
  rw [List.countP_eq_zero]
  intro l hl
  have := mem_pmidLinks pm l hl
  simp [this]

theorem sameClusterLinks_count_pmid (ns : List GraphNode) :
    (sameClusterLinks ns).countP (fun l => l.ltype == "pmid_to_dataset") = 0 := by
  rw [List.countP_eq_zero]
  intro l hl
  have := mem_sameClusterLinks ns l hl
  simp [this]

/-- C2: for non-empty records and coordinates, the number of same_cluster
links equals the number of unordered pairs of dataset nodes carrying equal
cluster labels, and the number of pmid_to_dataset links equals the total
count of (pmid, datasetId) pairs in the input map, including pairs whose
dataset ID has no corresponding node. -/
theorem prepareVisualizationData_link_counts (df : List (String × Dataset))
    (coords : List (ℚ × ℚ)) (labels : List Int) (pmidMap : AList (List String))
    (hdf : df ≠ []) (hcoords : coords ≠ []) :
    ((prepareVisualizationData df coords labels pmidMap).links.countP
        (fun l => l.ltype == "same_cluster"))
      = unorderedEqPairs
          ((datasetNodes df coords labels).map (fun node => node.cluster))
    ∧ ((prepareVisualizationData df coords labels pmidMap).links.countP
        (fun l => l.ltype == "pmid_to_dataset"))
      = (pmidMap.map (fun p => p.2.length)).sum := by
  unfold prepareVisualizationData
  rw [if_neg (by simp [hdf, hcoords])]
  constructor
  · show ((pmidLinks pmidMap ++ sameClusterLinks (datasetNodes df coords labels)).countP
        (fun l => l.ltype == "same_cluster")) = _
    rw [List.countP_append, pmidLinks_count_same, sameClusterLinks_count]
    omega
  · show ((pmidLinks pmidMap ++ sameClusterLinks (datasetNodes df coords labels)).countP
        (fun l => l.ltype == "pmid_to_dataset")) = _
    rw [List.countP_append, sameClusterLinks_count_pmid, pmidLinks_count]
    omega

/-- Witness for prepareVisualizationData_link_counts on a concrete graph:
two same-cluster nodes and a map with a dangling dataset ID. -/
theorem prepareVisualizationData_link_counts_witness :
    ((prepareVisualizationData [("P1", dsG1), ("P1", dsG2)] [(0, 0), (1, 1)] [0, 0]
        [("P1", ["G1", "G2", "GX"])]).links.countP
      (fun l => l.ltype == "same_cluster"))
      = unorderedEqPairs
          ((datasetNodes [("P1", dsG1), ("P1", dsG2)] [(0, 0), (1, 1)] [0, 0]).map
            (fun node => node.cluster)) :=
  (prepareVisualizationData_link_counts [("P1", dsG1), ("P1", dsG2)] [(0, 0), (1, 1)]
    [0, 0] [("P1", ["G1", "G2", "GX"])] (by simp) (by simp)).1

/- ----------------------------------------------------------------- -/
/- C8: the two-dataset scenario of the spec                          -/
/- ----------------------------------------------------------------- -/

/-- C8 (code bug): on the spec's scenario — PMID list consisting of P1,
resolving to dataset IDs G1 and G2, both detail fetches succeeding — the
retrieval stage does produce the two records tagged P1 and the map entry
P1 to [G1, G2], and the clustering stage would return k = 1 for two records;
but the endpoint cannot return the claimed graph: with exactly 2 documents
the TF-IDF document-frequency gate of the vectorizer (max_df times 2 = 1.4
below min_df = 2) raises a ValueError, so the handler answers with a generic
error response instead of the 2 records, k = 1, the two pmid_to_dataset
links and the one same_cluster link. -/
theorem fetchGeoData_two_datasets_scenario :
    (getGeoDataForPmids ["P1"] resolveC8 fetchC8).1 = [("P1", dsG1), ("P1", dsG2)]
    ∧ (getGeoDataForPmids ["P1"] resolveC8 fetchC8).2 = [("P1", ["G1", "G2"])]
    ∧ (∀ env aggLabels, performClustering 2 env aggLabels = (aggLabels 1, 1))
    ∧ (∀ fitTfidf env aggLabels reduce,
        fetchGeoData ["P1"] resolveC8 fetchC8 fitTfidf env aggLabels reduce
          = ApiResult.serverError "max_df corresponds to < documents than min_df") := by
  refine ⟨rfl, rfl, ?_, ?_⟩
  · intro env aggLabels
    rfl
  · intro fitTfidf env aggLabels reduce
    rfl

end PubTrends
